import Mathlib

set_option maxRecDepth 100000

/-!
Verification of the AMM prediction-market engine (Rust canister
`src/backend/src/lib.rs` of the DZ-Ramzy/ICP_ramzy repository) against its
natural-language specification.

The Rust source is shallowly embedded: `u64` values are modelled as `Nat`
with release-mode wrapping semantics made explicit (`wadd`/`wmul`/`wsub`,
each reducing modulo `2 ^ 64`); `u64` division and remainder coincide with
`Nat` division and remainder.  Subtraction sites that the source guards
against underflow use `Nat` subtraction only where the guard makes the two
semantics agree; unguarded subtraction sites use the wrapping `wsub`.
`HashMap`s are modelled as association lists whose lookup returns the first
binding and whose insert replaces the first binding (or appends), which
agrees with `HashMap` behaviour on the duplicate-free lists the engine
builds.  Fallible operations return `Except PredictionMarketError`.
-/

namespace ICPMarket

/-- Principals are already-authenticated identifiers supplied by the host;
the engine only compares them for equality, so they are modelled as `Nat`. -/
abbrev Principal := Nat

/-- `MarketStatus` from the source. -/
inductive MarketStatus where
  | Open
  | Resolved
  | Frozen
deriving DecidableEq, Repr

/-- `TokenType` from the source. -/
inductive TokenType where
  | Yes
  | No
deriving DecidableEq, Repr

/-- `PredictionMarketError` from the source. -/
inductive PredictionMarketError where
  | MarketNotFound
  | MarketClosed
  | MarketResolved
  | InsufficientDeposit
  | InsufficientLiquidity
  | Unauthorized
  | InvalidAmount
  | AlreadyClaimed
  | NoWinningTokens
  | SlippageExceeded
deriving DecidableEq, Repr

/-- `AmmMarket` from the source. -/
structure AmmMarket where
  id : Nat
  title : String
  description : String
  yes_reserve : Nat
  no_reserve : Nat
  icp_liquidity_pool : Nat
  status : MarketStatus
  winning_outcome : Option TokenType
  creator : Principal
  admin : Principal
  total_fees_collected : Nat
  creation_time : Nat
deriving DecidableEq, Repr

/-- `UserPosition` from the source. -/
structure UserPosition where
  user : Principal
  market_id : Nat
  yes_tokens : Nat
  no_tokens : Nat
  claimed_reward : Bool
deriving DecidableEq, Repr

/-- `TradeResult` from the source.  The `new_price : f64` field is a
display-only floating-point echo of `get_token_price` and is omitted from
the embedded receipt; the integer fields are kept exactly. -/
structure TradeResult where
  tokens_received : Nat
  tokens_paid : Nat
  fee_paid : Nat
deriving DecidableEq, Repr

/-- `RewardClaim` from the source. -/
structure RewardClaim where
  user : Principal
  market_id : Nat
  winning_tokens : Nat
  reward_amount : Nat
  claim_time : Nat
deriving DecidableEq, Repr

/-- `INITIAL_LIQUIDITY` constant from the source. -/
def INITIAL_LIQUIDITY : Nat := 500

/-- `TRADE_FEE` constant from the source (0.3% expressed as 3/1000). -/
def TRADE_FEE : Nat := 3

/-- `MIN_DEPOSIT` constant from the source. -/
def MIN_DEPOSIT : Nat := 1000

/-- Modulus of `u64` arithmetic. -/
def U64 : Nat := 2 ^ 64

/-- Wrapping `u64` addition (release-mode Rust `+`). -/
def wadd (a b : Nat) : Nat := (a + b) % U64

/-- Wrapping `u64` multiplication (release-mode Rust `*`). -/
def wmul (a b : Nat) : Nat := (a * b) % U64

/-- Wrapping `u64` subtraction (release-mode Rust `-`); for `a b < U64`
with `b ≤ a` this is plain subtraction. -/
def wsub (a b : Nat) : Nat := (a + U64 - b) % U64

/-- Association-list lookup: the first binding of the key, mirroring
`HashMap::get` on the duplicate-free lists the engine maintains. -/
def mget {κ α : Type} [DecidableEq κ] : List (κ × α) → κ → Option α
  | [], _ => none
  | e :: rest, k => if e.1 = k then some e.2 else mget rest k

/-- Association-list insert: replaces the first binding of the key or
appends a new one, mirroring `HashMap::insert`. -/
def mput {κ α : Type} [DecidableEq κ] : List (κ × α) → κ → α → List (κ × α)
  | [], k, v => [(k, v)]
  | e :: rest, k, v => if e.1 = k then (k, v) :: rest else e :: mput rest k v

instance {ε α : Type} [DecidableEq ε] [DecidableEq α] : DecidableEq (Except ε α) := fun x y =>
  match x, y with
  | .ok a, .ok b => if h : a = b then isTrue (by rw [h]) else isFalse (by simp [h])
  | .error a, .error b => if h : a = b then isTrue (by rw [h]) else isFalse (by simp [h])
  | .ok _, .error _ => isFalse (by simp)
  | .error _, .ok _ => isFalse (by simp)

/-- `calculate_tokens_out` from the source: constant-product buy quote with
the 0.3% fee applied to the input. -/
def calculate_tokens_out (yes_reserve no_reserve icp_in : Nat) (buy_yes : Bool) :
    Except PredictionMarketError Nat :=
  if yes_reserve = 0 ∨ no_reserve = 0 then
    .error .InsufficientLiquidity
  else
    let icp_after_fee := wmul icp_in (1000 - TRADE_FEE) / 1000
    if buy_yes then
      if no_reserve ≤ icp_after_fee then
        .error .InsufficientLiquidity
      else
        let k := wmul yes_reserve no_reserve
        let new_no_reserve := no_reserve - icp_after_fee
        let new_yes_reserve := k / new_no_reserve
        if new_yes_reserve ≤ yes_reserve then
          .error .InvalidAmount
        else
          .ok (new_yes_reserve - yes_reserve)
    else
      if yes_reserve ≤ icp_after_fee then
        .error .InsufficientLiquidity
      else
        let k := wmul yes_reserve no_reserve
        let new_yes_reserve := yes_reserve - icp_after_fee
        let new_no_reserve := k / new_yes_reserve
        if new_no_reserve ≤ no_reserve then
          .error .InvalidAmount
        else
          .ok (new_no_reserve - no_reserve)

/-- `calculate_icp_out` from the source: constant-product sell quote with
the 0.3% fee applied to the output.  The division by
`new_yes_reserve`/`new_no_reserve` is guarded nonzero by the preceding
checks, so `Nat` division agrees with Rust division here. -/
def calculate_icp_out (yes_reserve no_reserve tokens_in : Nat) (sell_yes : Bool) :
    Except PredictionMarketError Nat :=
  if yes_reserve = 0 ∨ no_reserve = 0 then
    .error .InsufficientLiquidity
  else
    if sell_yes then
      if yes_reserve ≤ tokens_in then
        .error .InvalidAmount
      else
        let k := wmul yes_reserve no_reserve
        let new_yes_reserve := yes_reserve - tokens_in
        if new_yes_reserve = 0 then
          .error .InsufficientLiquidity
        else
          let new_no_reserve := k / new_yes_reserve
          let icp_out := wsub new_no_reserve no_reserve
          .ok (wmul icp_out (1000 - TRADE_FEE) / 1000)
    else
      if no_reserve ≤ tokens_in then
        .error .InvalidAmount
      else
        let k := wmul yes_reserve no_reserve
        let new_no_reserve := no_reserve - tokens_in
        if new_no_reserve = 0 then
          .error .InsufficientLiquidity
        else
          let new_yes_reserve := k / new_no_reserve
          let icp_out := wsub new_yes_reserve yes_reserve
          .ok (wmul icp_out (1000 - TRADE_FEE) / 1000)

/-- The canister's thread-local stores, gathered into one state record:
`MARKETS`, `USER_POSITIONS`, `REWARD_CLAIMS`, `NEXT_MARKET_ID`, `ADMIN`,
`USER_BALANCES`.  `now` models the ambient `ic_cdk::api::time()` clock
read by `create_market` and `claim_reward`. -/
structure CanisterState where
  markets : List (Nat × AmmMarket)
  user_positions : List ((Principal × Nat) × UserPosition)
  reward_claims : List RewardClaim
  next_market_id : Nat
  admin : Option Principal
  user_balances : List (Principal × Nat)
  now : Nat
deriving DecidableEq, Repr

/-- Balance read `*balances.get(&user).unwrap_or(&0)` from the source. -/
def balanceOf (s : CanisterState) (user : Principal) : Nat :=
  (mget s.user_balances user).getD 0

/-- `create_market` from the source (the opaque `title`/`description` text
is stored unvalidated; `creation_time` is the ambient clock). -/
def create_market (caller : Principal) (title description : String)
    (initial_icp_liquidity : Nat) (s : CanisterState) :
    Except PredictionMarketError Nat × CanisterState :=
  if initial_icp_liquidity < MIN_DEPOSIT then
    (.error .InsufficientDeposit, s)
  else
    let user_balance := balanceOf s caller
    if user_balance < initial_icp_liquidity then
      (.error .InsufficientDeposit, s)
    else
      let market_id := s.next_market_id
      let market : AmmMarket :=
        { id := market_id
          title := title
          description := description
          yes_reserve := INITIAL_LIQUIDITY
          no_reserve := INITIAL_LIQUIDITY
          icp_liquidity_pool := initial_icp_liquidity
          status := .Open
          winning_outcome := none
          creator := caller
          admin := caller
          total_fees_collected := 0
          creation_time := s.now }
      (.ok market_id,
        { s with
          next_market_id := wadd s.next_market_id 1
          user_balances := mput s.user_balances caller
            (user_balance - initial_icp_liquidity)
          markets := mput s.markets market_id market })

/-- `execute_buy_trade` from the source.  The trailing
`get_token_price(market_id, token_type)?` call only produces the
display-only `new_price` and cannot fail on this path (the market was just
updated in place), so the embedded receipt carries the integer fields. -/
def execute_buy_trade (caller : Principal)
    (market_id icp_amount min_tokens_out : Nat) (token_type : TokenType)
    (s : CanisterState) :
    Except PredictionMarketError TradeResult × CanisterState :=
  if icp_amount = 0 then
    (.error .InvalidAmount, s)
  else
    let user_balance := balanceOf s caller
    if user_balance < icp_amount then
      (.error .InsufficientDeposit, s)
    else
      match mget s.markets market_id with
      | none => (.error .MarketNotFound, s)
      | some market =>
        if market.status ≠ .Open then
          (.error .MarketClosed, s)
        else
          match calculate_tokens_out market.yes_reserve market.no_reserve
              icp_amount (token_type = .Yes) with
          | .error e => (.error e, s)
          | .ok tokens_out =>
            if tokens_out < min_tokens_out then
              (.error .SlippageExceeded, s)
            else
              let fee := wmul icp_amount TRADE_FEE / 1000
              let drained := wmul icp_amount (1000 - TRADE_FEE) / 1000
              let market' :=
                match token_type with
                | .Yes => { market with
                    no_reserve := market.no_reserve - drained
                    yes_reserve := wadd market.yes_reserve tokens_out }
                | .No => { market with
                    yes_reserve := market.yes_reserve - drained
                    no_reserve := wadd market.no_reserve tokens_out }
              let market'' := { market' with
                icp_liquidity_pool := wadd market'.icp_liquidity_pool
                  (wsub icp_amount fee)
                total_fees_collected := wadd market'.total_fees_collected fee }
              let oldPos := (mget s.user_positions (caller, market_id)).getD
                { user := caller, market_id := market_id, yes_tokens := 0
                  no_tokens := 0, claimed_reward := false }
              let newPos :=
                match token_type with
                | .Yes => { oldPos with yes_tokens := wadd oldPos.yes_tokens tokens_out }
                | .No => { oldPos with no_tokens := wadd oldPos.no_tokens tokens_out }
              (.ok { tokens_received := tokens_out, tokens_paid := icp_amount
                     fee_paid := fee },
                { s with
                  markets := mput s.markets market_id market''
                  user_balances := mput s.user_balances caller
                    (user_balance - icp_amount)
                  user_positions := mput s.user_positions (caller, market_id) newPos })

/-- `execute_sell_trade` from the source.  As in the source, the gross
payout is recomputed from the pre-trade reserves, the pool is debited by
the net payout with `saturating_sub` (which is `Nat` subtraction), and the
receipt's `fee_paid` is the source's `icp_out * FEE / (1000 - FEE)`
approximation. -/
def execute_sell_trade (caller : Principal)
    (market_id token_amount min_icp_out : Nat) (token_type : TokenType)
    (s : CanisterState) :
    Except PredictionMarketError TradeResult × CanisterState :=
  if token_amount = 0 then
    (.error .InvalidAmount, s)
  else
    let user_tokens :=
      match mget s.user_positions (caller, market_id) with
      | some position =>
        match token_type with
        | .Yes => position.yes_tokens
        | .No => position.no_tokens
      | none => 0
    if user_tokens < token_amount then
      (.error .InvalidAmount, s)
    else
      match mget s.markets market_id with
      | none => (.error .MarketNotFound, s)
      | some market =>
        if market.status ≠ .Open then
          (.error .MarketClosed, s)
        else
          match calculate_icp_out market.yes_reserve market.no_reserve
              token_amount (token_type = .Yes) with
          | .error e => (.error e, s)
          | .ok icp_out =>
            if icp_out < min_icp_out then
              (.error .SlippageExceeded, s)
            else
              let gross_icp_out :=
                match token_type with
                | .Yes =>
                  wsub (wmul market.yes_reserve market.no_reserve /
                    (market.yes_reserve - token_amount)) market.no_reserve
                | .No =>
                  wsub (wmul market.yes_reserve market.no_reserve /
                    (market.no_reserve - token_amount)) market.yes_reserve
              let fee := wmul gross_icp_out TRADE_FEE / 1000
              let market' :=
                match token_type with
                | .Yes => { market with
                    yes_reserve := market.yes_reserve - token_amount
                    no_reserve := wadd market.no_reserve gross_icp_out }
                | .No => { market with
                    no_reserve := market.no_reserve - token_amount
                    yes_reserve := wadd market.yes_reserve gross_icp_out }
              let market'' := { market' with
                icp_liquidity_pool := market'.icp_liquidity_pool - icp_out
                total_fees_collected := wadd market'.total_fees_collected fee }
              let positions' :=
                match mget s.user_positions (caller, market_id) with
                | some position =>
                  mput s.user_positions (caller, market_id)
                    (match token_type with
                     | .Yes => { position with
                         yes_tokens := position.yes_tokens - token_amount }
                     | .No => { position with
                         no_tokens := position.no_tokens - token_amount })
                | none => s.user_positions
              (.ok { tokens_received := icp_out, tokens_paid := token_amount
                     fee_paid := wmul icp_out TRADE_FEE / (1000 - TRADE_FEE) },
                { s with
                  markets := mput s.markets market_id market''
                  user_positions := positions'
                  user_balances := mput s.user_balances caller
                    (wadd (balanceOf s caller) icp_out) })

/-- `resolve_market` from the source.  The confirmation string the source
formats on success is pure text and is modelled as `Unit`. -/
def resolve_market (caller : Principal) (market_id : Nat) (outcome : TokenType)
    (s : CanisterState) :
    Except PredictionMarketError Unit × CanisterState :=
  let is_global_admin : Bool :=
    match s.admin with
    | some admin_principal => admin_principal = caller
    | none => false
  let is_market_admin : Bool :=
    match mget s.markets market_id with
    | some market => market.admin = caller
    | none => false
  if !is_global_admin && !is_market_admin then
    (.error .Unauthorized, s)
  else
    match mget s.markets market_id with
    | some market =>
      if market.status ≠ .Open then
        (.error .MarketClosed, s)
      else
        (.ok (),
          { s with
            markets := mput s.markets market_id
              { market with status := .Resolved, winning_outcome := some outcome } })
    | none => (.error .MarketNotFound, s)

/-- Winning-side token count of one position, per the `match` in
`claim_reward`. -/
def winningTokens (winning_token_type : TokenType) (position : UserPosition) : Nat :=
  match winning_token_type with
  | .Yes => position.yes_tokens
  | .No => position.no_tokens

/-- The `.sum::<u64>()` over all positions of the market in `claim_reward`
(release-mode wrapping addition). -/
def totalWinningTokens (s : CanisterState) (market_id : Nat)
    (winning_token_type : TokenType) : Nat :=
  (s.user_positions.filter (fun e => e.2.market_id = market_id)).foldl
    (fun acc e => wadd acc (winningTokens winning_token_type e.2)) 0

/-- `claim_reward` from the source.  The reward is computed in `u128`
(the product of two `u64` values never wraps 128 bits) and cast back with
`as u64`, i.e. reduced modulo `2 ^ 64`. -/
def claim_reward (caller : Principal) (market_id : Nat) (s : CanisterState) :
    Except PredictionMarketError RewardClaim × CanisterState :=
  match mget s.markets market_id with
  | none => (.error .MarketNotFound, s)
  | some market =>
    if market.status ≠ .Resolved then
      (.error .MarketClosed, s)
    else
      match market.winning_outcome with
      | none => (.error .MarketNotFound, s)
      | some winning_token_type =>
        let pair :=
          match mget s.user_positions (caller, market_id) with
          | some position =>
            if position.claimed_reward then (0, true)
            else (winningTokens winning_token_type position, false)
          | none => (0, false)
        if pair.2 then
          (.error .AlreadyClaimed, s)
        else if pair.1 = 0 then
          (.error .NoWinningTokens, s)
        else
          let total_winning_tokens := totalWinningTokens s market_id winning_token_type
          if total_winning_tokens = 0 then
            (.error .InsufficientLiquidity, s)
          else
            let reward_amount :=
              pair.1 * market.icp_liquidity_pool / total_winning_tokens % U64
            let positions' :=
              match mget s.user_positions (caller, market_id) with
              | some position =>
                mput s.user_positions (caller, market_id)
                  { position with
                    claimed_reward := true
                    yes_tokens :=
                      match winning_token_type with
                      | .Yes => 0
                      | .No => position.yes_tokens
                    no_tokens :=
                      match winning_token_type with
                      | .Yes => position.no_tokens
                      | .No => 0 }
              | none => s.user_positions
            let claim : RewardClaim :=
              { user := caller, market_id := market_id
                winning_tokens := pair.1, reward_amount := reward_amount
                claim_time := s.now }
            (.ok claim,
              { s with
                user_positions := positions'
                user_balances := mput s.user_balances caller
                  (wadd (balanceOf s caller) reward_amount)
                reward_claims := s.reward_claims ++ [claim]
                markets := mput s.markets market_id
                  { market with
                    icp_liquidity_pool := market.icp_liquidity_pool - reward_amount } })

/-- `get_buy_quote` from the source: the read-only quote path.  The
hypothetical `new_price` it also reports is display-only floating point and
is omitted, as in `TradeResult`. -/
def get_buy_quote (market_id icp_amount : Nat) (token_type : TokenType)
    (s : CanisterState) : Except PredictionMarketError TradeResult :=
  match mget s.markets market_id with
  | none => .error .MarketNotFound
  | some market =>
    if market.status ≠ .Open then
      .error .MarketClosed
    else
      match calculate_tokens_out market.yes_reserve market.no_reserve
          icp_amount (token_type = .Yes) with
      | .error e => .error e
      | .ok tokens_out =>
        .ok { tokens_received := tokens_out, tokens_paid := icp_amount
              fee_paid := wmul icp_amount TRADE_FEE / 1000 }

/-- `deposit_icp` from the source. -/
def deposit_icp (caller : Principal) (amount : Nat) (s : CanisterState) :
    Except PredictionMarketError Unit × CanisterState :=
  if amount < MIN_DEPOSIT then
    (.error .InvalidAmount, s)
  else
    (.ok (),
      { s with
        user_balances := mput s.user_balances caller
          (wadd (balanceOf s caller) amount) })

/-- `set_admin` from the source (development mode: anyone may set it). -/
def set_admin (admin_principal : Principal) (s : CanisterState) : CanisterState :=
  { s with admin := some admin_principal }

/-- `reset_admin` from the source. -/
def reset_admin (s : CanisterState) : CanisterState :=
  { s with admin := none }

/-- One externally-triggered state-mutating operation of the canister. -/
inductive Op where
  | deposit (caller : Principal) (amount : Nat)
  | createMarket (caller : Principal) (title description : String) (initial : Nat)
  | buy (caller : Principal) (market_id icp_amount min_tokens_out : Nat)
      (token_type : TokenType)
  | sell (caller : Principal) (market_id token_amount min_icp_out : Nat)
      (token_type : TokenType)
  | resolve (caller : Principal) (market_id : Nat) (outcome : TokenType)
  | claim (caller : Principal) (market_id : Nat)
  | setAdmin (admin_principal : Principal)
  | resetAdmin

/-- The state reached after running one operation (result value dropped). -/
def step (op : Op) (s : CanisterState) : CanisterState :=
  match op with
  | .deposit caller amount => (deposit_icp caller amount s).2
  | .createMarket caller title description initial =>
    (create_market caller title description initial s).2
  | .buy caller market_id icp_amount min_tokens_out token_type =>
    (execute_buy_trade caller market_id icp_amount min_tokens_out token_type s).2
  | .sell caller market_id token_amount min_icp_out token_type =>
    (execute_sell_trade caller market_id token_amount min_icp_out token_type s).2
  | .resolve caller market_id outcome => (resolve_market caller market_id outcome s).2
  | .claim caller market_id => (claim_reward caller market_id s).2
  | .setAdmin admin_principal => set_admin admin_principal s
  | .resetAdmin => reset_admin s

/-- The sticky `claimed_reward` flag of a (user, market) position
(`false` when no position exists). -/
def claimedFlag (s : CanisterState) (user : Principal) (market_id : Nat) : Bool :=
  match mget s.user_positions (user, market_id) with
  | some position => position.claimed_reward
  | none => false

/-- The side-`tt` token holding of the caller's (user, market) position,
`0` when no position exists. -/
def posTokens (s : CanisterState) (user : Principal) (market_id : Nat)
    (tt : TokenType) : Nat :=
  match mget s.user_positions (user, market_id) with
  | some position =>
    match tt with
    | .Yes => position.yes_tokens
    | .No => position.no_tokens
  | none => 0

/-- A concrete open market used by the witnesses: reserves 1000/1000,
pool 5000, creator and admin principal 1. -/
def wsMkt : AmmMarket :=
  { id := 1, title := "w", description := "w", yes_reserve := 1000
    no_reserve := 1000, icp_liquidity_pool := 5000, status := .Open
    winning_outcome := none, creator := 1, admin := 1
    total_fees_collected := 0, creation_time := 0 }

/-- A concrete canister state used by the witnesses: the market `wsMkt`
under id 1, principal 7 holding balance 10000 and a 50/50 position,
global admin 1. -/
def wsOpen : CanisterState :=
  { markets := [(1, wsMkt)]
    user_positions := [((7, 1),
      { user := 7, market_id := 1, yes_tokens := 50, no_tokens := 50
        claimed_reward := false })]
    reward_claims := []
    next_market_id := 2
    admin := some 1
    user_balances := [(7, 10000)]
    now := 0 }

/-- A concrete resolved market: reserves 500/500, pool 5000, winning
outcome YES, creator and admin principal 1. -/
def rsMkt : AmmMarket :=
  { id := 1, title := "r", description := "r", yes_reserve := 500
    no_reserve := 500, icp_liquidity_pool := 5000, status := .Resolved
    winning_outcome := some .Yes, creator := 1, admin := 1
    total_fees_collected := 0, creation_time := 0 }

/-- A concrete resolved canister state: market `rsMkt` under id 1 and a
single position, principal 7 holding all 500 winning YES tokens. -/
def rsPos : UserPosition :=
  { user := 7, market_id := 1, yes_tokens := 500, no_tokens := 0
    claimed_reward := false }

/-- The resolved single-claimant state used by C3 and the C5 witness. -/
def wsResolved : CanisterState :=
  { markets := [(1, rsMkt)]
    user_positions := [((7, 1), rsPos)]
    reward_claims := []
    next_market_id := 2
    admin := some 1
    user_balances := []
    now := 0 }

/-!
`get_token_price` computes in Rust `f64`.  IEEE-754 binary64 arithmetic is
embedded exactly: a finite nonnegative double is a pair `mantissa * 2 ^
exponent`, and each operation rounds the exact rational result to 53
significant bits, round-to-nearest ties-to-even.  All values arising here
(integer reserves below `2 ^ 64` and their quotients) lie far inside the
normal range, so neither subnormals nor overflow can occur and are not
modelled.
-/

/-- Fuel-driven floor of the base-2 logarithm (structural recursion so the
kernel can evaluate it; 256 bits of fuel covers every number used here). -/
def ilog2F : Nat → Nat → Nat
  | 0, _ => 0
  | fuel + 1, n => if n ≤ 1 then 0 else ilog2F fuel (n / 2) + 1

/-- `⌊log₂ n⌋` for `n ≥ 1`. -/
def ilog2 (n : Nat) : Nat := ilog2F 256 n

/-- Round the rational `p / q` (with `q ≠ 0`) to the nearest integer,
ties to even. -/
def roundTiesEven (p q : Nat) : Nat :=
  let d := p / q
  let r := p % q
  if 2 * r < q then d
  else if q < 2 * r then d + 1
  else if d % 2 = 0 then d else d + 1

/-- Does `2 ^ e ≤ p / q` hold (for `p q ≥ 1`)? -/
def pow2Le (e : Int) (p q : Nat) : Bool :=
  if 0 ≤ e then q * 2 ^ e.toNat ≤ p else q ≤ p * 2 ^ (-e).toNat

/-- `⌊log₂ (p / q)⌋` for `p q ≥ 1`. -/
def floorLog2Q (p q : Nat) : Int :=
  let e0 : Int := (ilog2 p : Int) - (ilog2 q : Int)
  if pow2Le e0 p q then e0 else e0 - 1

/-- A finite nonnegative IEEE-754 binary64 value `mantissa * 2 ^ exponent`;
nonzero results of rounding carry a 53-bit mantissa in `[2^52, 2^53]`. -/
structure F64 where
  mantissa : Nat
  exponent : Int
deriving DecidableEq, Repr

/-- The exact rational value of a binary64 datum. -/
def F64.toQ (x : F64) : ℚ := (x.mantissa : ℚ) * (2 : ℚ) ^ x.exponent

/-- Correctly round the nonnegative rational `p / q` to binary64
(round to nearest, ties to even): take `e = ⌊log₂ (p/q)⌋` and round
`(p/q) * 2 ^ (52 - e)` to an integer mantissa. -/
def roundPQ (p q : Nat) : F64 :=
  if p = 0 then ⟨0, 0⟩
  else
    let e := floorLog2Q p q
    let m := if 52 ≤ e then roundTiesEven p (q * 2 ^ (e - 52).toNat)
             else roundTiesEven (p * 2 ^ (52 - e).toNat) q
    ⟨m, e - 52⟩

/-- `n as f64` for `n : u64` (correctly rounded conversion). -/
def u64ToF64 (n : Nat) : F64 := roundPQ n 1

/-- Binary64 division: round the exact quotient. -/
def f64div (a b : F64) : F64 :=
  let de := a.exponent - b.exponent
  if 0 ≤ de then roundPQ (a.mantissa * 2 ^ de.toNat) b.mantissa
  else roundPQ a.mantissa (b.mantissa * 2 ^ (-de).toNat)

/-- Binary64 addition: round the exact sum. -/
def f64add (a b : F64) : F64 :=
  let emin := min a.exponent b.exponent
  let p := a.mantissa * 2 ^ (a.exponent - emin).toNat +
           b.mantissa * 2 ^ (b.exponent - emin).toNat
  if 0 ≤ emin then roundPQ (p * 2 ^ emin.toNat) 1
  else roundPQ p (2 ^ (-emin).toNat)

/-- The binary64 literal `0.5` returned on empty liquidity. -/
def halfF64 : F64 := ⟨2 ^ 52, -53⟩

/-- The price computation shared by `get_token_price` in `lib.rs` and
`calculate_token_price` in `amm_tests.rs`: `0.5` on zero total, otherwise
the opposite reserve divided by the total, in `f64`. -/
def calculate_token_price (yes_reserve no_reserve : Nat)
    (token_type : TokenType) : F64 :=
  let total_tokens := wadd yes_reserve no_reserve
  if total_tokens = 0 then halfF64
  else
    match token_type with
    | .Yes => f64div (u64ToF64 no_reserve) (u64ToF64 total_tokens)
    | .No => f64div (u64ToF64 yes_reserve) (u64ToF64 total_tokens)

/-- `get_token_price` from the source. -/
def get_token_price (market_id : Nat) (token_type : TokenType)
    (s : CanisterState) : Except PredictionMarketError F64 :=
  match mget s.markets market_id with
  | some market =>
    .ok (calculate_token_price market.yes_reserve market.no_reserve token_type)
  | none => .error .MarketNotFound

/-- The real-arithmetic idealization of the same price formula (used to
state the amended C9: the rounding, not the formula, breaks exactness). -/
def exact_token_price (yes_reserve no_reserve : Nat)
    (token_type : TokenType) : ℚ :=
  if yes_reserve + no_reserve = 0 then 1 / 2
  else
    match token_type with
    | .Yes => (no_reserve : ℚ) / ((yes_reserve : ℚ) + (no_reserve : ℚ))
    | .No => (yes_reserve : ℚ) / ((yes_reserve : ℚ) + (no_reserve : ℚ))

/-- A market whose reserves exceed `2 ^ 53`, where `as f64` conversion is
no longer exact (used by the C9 counterexample). -/
def c9Mkt : AmmMarket :=
  { id := 1, title := "c", description := "c", yes_reserve := 1
    no_reserve := 9007199254740993, icp_liquidity_pool := 0, status := .Open
    winning_outcome := none, creator := 1, admin := 1
    total_fees_collected := 0, creation_time := 0 }

/-- The state holding `c9Mkt` under id 1. -/
def c9State : CanisterState :=
  { markets := [(1, c9Mkt)]
    user_positions := []
    reward_claims := []
    next_market_id := 2
    admin := none
    user_balances := []
    now := 0 }

end ICPMarket

namespace ICPMarket

theorem mget_mput_self {κ α : Type} [DecidableEq κ] (l : List (κ × α)) (k : κ) (v : α) :
    mget (mput l k v) k = some v := by
  induction l with
  | nil => simp [mget, mput]
  | cons e rest ih =>
    by_cases h : e.1 = k
    · simp [mput, h, mget]
    · simp [mput, h, mget, ih]

theorem mget_mput_ne {κ α : Type} [DecidableEq κ] (l : List (κ × α)) (k k' : κ) (v : α)
    (h : ¬ k' = k) : mget (mput l k v) k' = mget l k' := by
  have h2 : ¬ k = k' := fun hh => h hh.symm
  induction l with
  | nil => simp [mget, mput, h2]
  | cons e rest ih =>
    by_cases he : e.1 = k
    · subst he
      simp [mput, mget, h2]
    · simp only [mput, if_neg he]
      by_cases he' : e.1 = k'
      · simp [mget, he']
      · simp [mget, he', ih]

/-- C1 (counterexample): at `yes_reserve = no_reserve = 1000`,
`input_amount = 100`, buy-YES, the code returns `tokens_out = 109`
(since `⌊1000000 / 901⌋ = 1109`), not the `110` the claim states. -/
theorem c1_counterexample :
    calculate_tokens_out 1000 1000 100 true = Except.ok 109 ∧
      calculate_tokens_out 1000 1000 100 true ≠ Except.ok 110 := by
  decide

/-- C1 (amended): for reserves `yes_reserve = no_reserve = 1000`, quoting a
buy of YES with `input_amount = 100` computes `input_after_fee = 99`,
`k = 1000000`, `new_no_reserve = 901`,
`new_yes_reserve = ⌊1000000 / 901⌋ = 1109`, and returns `tokens_out = 109`. -/
theorem c1_example_trade :
    wmul 100 (1000 - TRADE_FEE) / 1000 = 99 ∧
    wmul 1000 1000 = 1000000 ∧
    1000 - 99 = 901 ∧
    1000000 / 901 = 1109 ∧
    calculate_tokens_out 1000 1000 100 true = Except.ok 109 := by
  decide

/-- C6: guards of the buy quote `calculate_tokens_out`: a zero reserve
always fails `InsufficientLiquidity`; with nonzero reserves, a fee-adjusted
input that reaches the drained reserve fails `InsufficientLiquidity`; and
when those guards pass but the recomputed target reserve does not exceed
the current one, the quote fails `InvalidAmount`. -/
theorem c6_quote_buy_guards (y n i : Nat) (b : Bool) :
    ((y = 0 ∨ n = 0) →
      calculate_tokens_out y n i b = .error .InsufficientLiquidity) ∧
    (y ≠ 0 → n ≠ 0 → (if b then n else y) ≤ wmul i (1000 - TRADE_FEE) / 1000 →
      calculate_tokens_out y n i b = .error .InsufficientLiquidity) ∧
    (y ≠ 0 → n ≠ 0 → wmul i (1000 - TRADE_FEE) / 1000 < (if b then n else y) →
      wmul y n / ((if b then n else y) - wmul i (1000 - TRADE_FEE) / 1000) ≤
        (if b then y else n) →
      calculate_tokens_out y n i b = .error .InvalidAmount) := by
  refine ⟨fun h => ?_, fun hy hn h => ?_, fun hy hn h1 h2 => ?_⟩
  · simp [calculate_tokens_out, h]
  · cases b <;> simp_all [calculate_tokens_out]
  · cases b <;> simp_all [calculate_tokens_out]

/-- C6 witness: the zero-reserve guard at a concrete input. -/
theorem c6_quote_buy_guards_witness :
    calculate_tokens_out 0 100 50 true = .error .InsufficientLiquidity :=
  (c6_quote_buy_guards 0 100 50 true).1 (Or.inl rfl)

/-- C7 (counterexample): with `yes_reserve = 0` the sell quote fails
`InsufficientLiquidity`, not `InvalidAmount`, even though
`tokens_in = 5 ≥ 0 = yes_reserve`; so the claim's first clause is false as
stated for zero reserves. -/
theorem c7_counterexample :
    0 ≤ (5 : Nat) ∧
    calculate_icp_out 0 100 5 true = .error .InsufficientLiquidity ∧
    calculate_icp_out 0 100 5 true ≠ .error .InvalidAmount := by
  decide

/-- C7 (amended): with a zero reserve the sell quote fails
`InsufficientLiquidity` regardless of `tokens_in`; for nonzero reserves, if
`tokens_in` reaches the reserve being sold from it fails `InvalidAmount`;
otherwise the drained reserve stays nonzero (the `InsufficientLiquidity`
drain-to-zero guard is unreachable) and the quote returns the gross
constant-product payout truncated by the fee factor `(1000 - 3) / 1000`
applied to the output. -/
theorem c7_quote_sell_spec (y n t : Nat) (s : Bool) :
    ((y = 0 ∨ n = 0) →
      calculate_icp_out y n t s = .error .InsufficientLiquidity) ∧
    (y ≠ 0 → n ≠ 0 → (if s then y else n) ≤ t →
      calculate_icp_out y n t s = .error .InvalidAmount) ∧
    (y ≠ 0 → n ≠ 0 → t < (if s then y else n) →
      calculate_icp_out y n t s =
        .ok (wmul (wsub (wmul y n / ((if s then y else n) - t))
              (if s then n else y)) (1000 - TRADE_FEE) / 1000)) := by
  refine ⟨fun h => ?_, fun hy hn h => ?_, fun hy hn h => ?_⟩
  · simp [calculate_icp_out, h]
  · cases s <;> simp_all [calculate_icp_out]
  · cases s
    · simp only [Bool.false_eq_true, if_false] at h ⊢
      have h1 : ¬ (n ≤ t) := by omega
      have h2 : ¬ (n - t = 0) := by omega
      simp [calculate_icp_out, hy, hn, h1, h2]
    · simp only [if_true] at h ⊢
      have h1 : ¬ (y ≤ t) := by omega
      have h2 : ¬ (y - t = 0) := by omega
      simp [calculate_icp_out, hy, hn, h1, h2]

/-- C7 witness: the amended spec evaluated at a concrete zero-reserve sell
and at a concrete overdrawn sell. -/
theorem c7_quote_sell_spec_witness :
    calculate_icp_out 0 100 5 true = .error .InsufficientLiquidity ∧
    calculate_icp_out 1000 1000 1500 true = .error .InvalidAmount :=
  ⟨(c7_quote_sell_spec 0 100 5 true).1 (Or.inl rfl),
   (c7_quote_sell_spec 1000 1000 1500 true).2.1 (by decide) (by decide) (by decide)⟩

/-- C9 (counterexample): at reserves `yes = 1`, `no = 2 ^ 53 + 1` (total
`2 ^ 53 + 2 > 0`), the two prices `get_token_price` computes in binary64
are `9007199254740990 * 2 ^ (-53)` and `9007199254740990 * 2 ^ (-106)`,
whose sum differs from 1 — both as exact rationals and after a final
binary64 addition (which yields `1 - 2 ^ (-53)`). -/
theorem c9_counterexample :
    get_token_price 1 TokenType.Yes c9State = .ok ⟨9007199254740990, -53⟩ ∧
    get_token_price 1 TokenType.No c9State = .ok ⟨9007199254740990, -106⟩ ∧
    F64.toQ ⟨9007199254740990, -53⟩ + F64.toQ ⟨9007199254740990, -106⟩ ≠ 1 ∧
    F64.toQ (f64add ⟨9007199254740990, -53⟩ ⟨9007199254740990, -106⟩) ≠ 1 := by
  refine ⟨by decide, by decide, ?_, ?_⟩
  · norm_num [F64.toQ]
  · have hs : f64add ⟨9007199254740990, -53⟩ ⟨9007199254740990, -106⟩ =
        ⟨9007199254740991, -53⟩ := by decide
    rw [hs]
    norm_num [F64.toQ]

/-- C9 (amended): the price formula itself is exactly complementary — in
real arithmetic the two prices sum to 1 whenever `yes + no > 0` — and with
both reserves zero each binary64 price is exactly `0.5`; only the binary64
rounding of large reserves breaks exactness of the computed sum. -/
theorem c9_price_sum (y n : Nat) (h : y + n ≠ 0) :
    exact_token_price y n TokenType.Yes + exact_token_price y n TokenType.No = 1 ∧
    calculate_token_price 0 0 TokenType.Yes = halfF64 ∧
    calculate_token_price 0 0 TokenType.No = halfF64 ∧
    F64.toQ halfF64 = 1 / 2 := by
  refine ⟨?_, by decide, by decide, by norm_num [F64.toQ, halfF64]⟩
  have h' : ((y : ℚ) + (n : ℚ)) ≠ 0 := by
    have h2 : (((y + n : ℕ)) : ℚ) ≠ 0 := Nat.cast_ne_zero.mpr h
    push_cast at h2
    exact h2
  simp only [exact_token_price, if_neg h]
  rw [div_add_div_same, add_comm ((n : ℚ)) ((y : ℚ))]
  exact div_self h'

/-- C9 witness: the amended price-sum identity at reserves 300/700. -/
theorem c9_price_sum_witness :
    exact_token_price 300 700 TokenType.Yes +
      exact_token_price 300 700 TokenType.No = 1 :=
  (c9_price_sum 300 700 (by decide)).1

/-- C10: `create_market` rejects every request whose `initial_amount` is
below `MIN_DEPOSIT = 1000` with `InsufficientDeposit`, leaving the whole
state untouched. -/
theorem c10_min_deposit (caller : Principal) (title description : String)
    (initial_amount : Nat) (s : CanisterState) (h : initial_amount < MIN_DEPOSIT) :
    create_market caller title description initial_amount s =
      (.error .InsufficientDeposit, s) := by
  simp [create_market, h]

/-- C10 witness: a below-minimum request at a concrete state. -/
theorem c10_min_deposit_witness :
    create_market 7 "t" "d" 999 wsOpen = (.error .InsufficientDeposit, wsOpen) :=
  c10_min_deposit 7 "t" "d" 999 wsOpen (by decide)

/-- C8: for an existing market, a caller that is neither the global admin
nor the market's admin gets `Unauthorized` from `resolve_market` with the
state (hence the market's status and winning outcome) unchanged; an
authorized caller resolving a market whose status is not `Open` gets
`MarketClosed`, also with the state unchanged. -/
theorem c8_resolve_gate (s : CanisterState) (caller : Principal) (market_id : Nat)
    (outcome : TokenType) (mkt : AmmMarket)
    (hm : mget s.markets market_id = some mkt) :
    (s.admin ≠ some caller → mkt.admin ≠ caller →
      resolve_market caller market_id outcome s = (.error .Unauthorized, s)) ∧
    ((s.admin = some caller ∨ mkt.admin = caller) → mkt.status ≠ .Open →
      resolve_market caller market_id outcome s = (.error .MarketClosed, s)) := by
  constructor
  · intro h1 h2
    cases ha : s.admin with
    | none => simp [resolve_market, hm, ha, h2]
    | some a =>
      have : a ≠ caller := fun hh => h1 (by rw [ha, hh])
      simp [resolve_market, hm, ha, this, h2]
  · intro h1 h2
    rcases h1 with h1 | h1
    · simp [resolve_market, hm, h1, h2]
    · cases ha : s.admin with
      | none => simp [resolve_market, hm, ha, h1, h2]
      | some a => simp [resolve_market, hm, ha, h1, h2]

/-- C8 witness: principal 9 (neither global admin 1 nor market admin 1)
cannot resolve market 1 of the concrete state. -/
theorem c8_resolve_gate_witness :
    resolve_market 9 1 TokenType.Yes wsOpen = (.error .Unauthorized, wsOpen) :=
  (c8_resolve_gate wsOpen 9 1 TokenType.Yes wsMkt (by decide)).1 (by decide) (by decide)

/-- C4: a buy whose quoted `tokens_out` is below `min_tokens_out`, and a
sell whose quoted payout is below `min_icp_out`, return `SlippageExceeded`
and return the state exactly as it was (so reserves, pool, fees, balances,
positions and the claim log are all untouched). -/
theorem c4_slippage_no_mutation (s : CanisterState) (caller : Principal)
    (market_id amount minOut : Nat) (tt : TokenType) (mkt : AmmMarket)
    (hm : mget s.markets market_id = some mkt) (hopen : mkt.status = .Open) :
    (∀ t, amount ≠ 0 → ¬ balanceOf s caller < amount →
      calculate_tokens_out mkt.yes_reserve mkt.no_reserve amount (tt = .Yes) = .ok t →
      t < minOut →
      execute_buy_trade caller market_id amount minOut tt s =
        (.error .SlippageExceeded, s)) ∧
    (∀ p payout, amount ≠ 0 →
      mget s.user_positions (caller, market_id) = some p →
      ¬ (match tt with | .Yes => p.yes_tokens | .No => p.no_tokens) < amount →
      calculate_icp_out mkt.yes_reserve mkt.no_reserve amount (tt = .Yes) = .ok payout →
      payout < minOut →
      execute_sell_trade caller market_id amount minOut tt s =
        (.error .SlippageExceeded, s)) := by
  constructor
  · intro t h0 hbal hcalc hslip
    simp [execute_buy_trade, h0, hbal, hm, hopen, hcalc, hslip]
  · intro p payout h0 hp htok hcalc hslip
    simp [execute_sell_trade, h0, hp, htok, hm, hopen, hcalc, hslip]

/-- C4 witness: buying YES at the concrete state quotes 109 tokens for
100 ICP; demanding at least 200 trips the slippage guard and leaves the
state unchanged. -/
theorem c4_slippage_no_mutation_witness :
    execute_buy_trade 7 1 100 200 TokenType.Yes wsOpen =
      (.error .SlippageExceeded, wsOpen) :=
  (c4_slippage_no_mutation wsOpen 7 1 100 200 TokenType.Yes wsMkt (by decide)
    (by decide)).1 109 (by decide) (by decide) (by decide) (by decide)

/-- C2: for a buy whose preconditions all pass, `get_buy_quote` on the same
state succeeds and quotes exactly the `tokens_out` that
`execute_buy_trade` both reports in its receipt and credits to the
caller's position. -/
theorem c2_quote_matches_execution (s : CanisterState) (caller : Principal)
    (market_id amount minOut : Nat) (tt : TokenType) (mkt : AmmMarket) (t : Nat)
    (hamt : amount ≠ 0) (hbal : ¬ balanceOf s caller < amount)
    (hm : mget s.markets market_id = some mkt) (hopen : mkt.status = .Open)
    (hcalc : calculate_tokens_out mkt.yes_reserve mkt.no_reserve amount
      (tt = .Yes) = .ok t)
    (hslip : ¬ t < minOut) :
    get_buy_quote market_id amount tt s =
      .ok { tokens_received := t, tokens_paid := amount
            fee_paid := wmul amount TRADE_FEE / 1000 } ∧
    (execute_buy_trade caller market_id amount minOut tt s).1 =
      .ok { tokens_received := t, tokens_paid := amount
            fee_paid := wmul amount TRADE_FEE / 1000 } ∧
    posTokens (execute_buy_trade caller market_id amount minOut tt s).2
        caller market_id tt =
      wadd (posTokens s caller market_id tt) t := by
  refine ⟨?_, ?_, ?_⟩
  · simp [get_buy_quote, hm, hopen, hcalc]
  · simp [execute_buy_trade, hamt, hbal, hm, hopen, hcalc, hslip]
  · cases tt with
    | Yes =>
      have hc : calculate_tokens_out mkt.yes_reserve mkt.no_reserve amount true =
          .ok t := by simpa using hcalc
      cases hp : mget s.user_positions (caller, market_id) with
      | none =>
        simp [execute_buy_trade, hamt, hbal, hm, hopen, hc, hslip, posTokens, hp,
          mget_mput_self]
      | some p =>
        simp [execute_buy_trade, hamt, hbal, hm, hopen, hc, hslip, posTokens, hp,
          mget_mput_self]
    | No =>
      have hc : calculate_tokens_out mkt.yes_reserve mkt.no_reserve amount false =
          .ok t := by simpa using hcalc
      cases hp : mget s.user_positions (caller, market_id) with
      | none =>
        simp [execute_buy_trade, hamt, hbal, hm, hopen, hc, hslip, posTokens, hp,
          mget_mput_self]
      | some p =>
        simp [execute_buy_trade, hamt, hbal, hm, hopen, hc, hslip, posTokens, hp,
          mget_mput_self]

/-- C3: in the resolved 500/500 market with pool 5000, the single holder
of all 500 winning tokens is paid exactly 5000 — the widened-integer floor
`⌊500 * 5000 / 500⌋` — both in the returned claim record and as a balance
credit. -/
theorem c3_single_claimant_payout :
    (claim_reward 7 1 wsResolved).1 =
      .ok { user := 7, market_id := 1, winning_tokens := 500
            reward_amount := 5000, claim_time := 0 } ∧
    balanceOf (claim_reward 7 1 wsResolved).2 7 = 5000 ∧
    500 * 5000 / 500 % U64 = 5000 := by
  decide

/-- If a claimed flag is true before an insert, it is still true after
inserting a binding whose value keeps the flag on the same key. -/
theorem claimedFlag_after_mput (s' : CanisterState)
    (l : List ((Principal × Nat) × UserPosition)) (key : Principal × Nat)
    (q : UserPosition) (u : Principal) (m : Nat) (p : UserPosition)
    (hs : s'.user_positions = mput l key q)
    (hp : mget l (u, m) = some p) (hpc : p.claimed_reward = true)
    (hq : (u, m) = key → q.claimed_reward = true) :
    claimedFlag s' u m = true := by
  unfold claimedFlag
  rw [hs]
  by_cases hk : (u, m) = key
  · rw [hk, mget_mput_self]
    exact hq hk
  · rw [mget_mput_ne l key (u, m) q hk, hp]
    exact hpc

/-- No operation of the engine ever resets a `claimed_reward` flag that is
already `true`. -/
theorem claimedFlag_step_mono (op : Op) (t : CanisterState) (u : Principal)
    (m : Nat) (h : claimedFlag t u m = true) :
    claimedFlag (step op t) u m = true := by
  obtain ⟨p, hp, hpc⟩ :
      ∃ p, mget t.user_positions (u, m) = some p ∧ p.claimed_reward = true := by
    unfold claimedFlag at h
    cases hpm : mget t.user_positions (u, m) with
    | none => rw [hpm] at h; simp at h
    | some p => rw [hpm] at h; exact ⟨p, rfl, h⟩
  cases op with
  | deposit caller amount =>
    simp only [step, deposit_icp]
    repeat' split
    all_goals simp [claimedFlag, hp, hpc]
  | createMarket caller title description initial =>
    simp only [step, create_market]
    repeat' split
    all_goals simp [claimedFlag, hp, hpc]
  | setAdmin a => simp [step, set_admin, claimedFlag, hp, hpc]
  | resetAdmin => simp [step, reset_admin, claimedFlag, hp, hpc]
  | resolve caller market_id outcome =>
    simp only [step, resolve_market]
    repeat' split
    all_goals simp [claimedFlag, hp, hpc]
  | buy caller market_id icp_amount min_tokens_out token_type =>
    simp only [step, execute_buy_trade]
    repeat' split
    all_goals try (simp [claimedFlag, hp, hpc]; done)
    all_goals
      (refine claimedFlag_after_mput _ t.user_positions (caller, market_id) _
        u m p rfl hp hpc (fun hk => ?_);
       have h2 : mget t.user_positions (caller, market_id) = some p := by
         rw [← hk]; exact hp;
       simp [h2, hpc])
  | sell caller market_id token_amount min_icp_out token_type =>
    simp only [step, execute_sell_trade]
    repeat' split
    all_goals try (simp [claimedFlag, hp, hpc]; done)
    all_goals
      (refine claimedFlag_after_mput _ t.user_positions (caller, market_id) _
        u m p rfl hp hpc (fun hk => ?_);
       have h2 : mget t.user_positions (caller, market_id) = some p := by
         rw [← hk]; exact hp;
       simp_all [hpc])
  | claim caller market_id =>
    simp only [step, claim_reward]
    repeat' split
    all_goals try (simp [claimedFlag, hp, hpc]; done)
    all_goals
      (refine claimedFlag_after_mput _ t.user_positions (caller, market_id) _
        u m p rfl hp hpc (fun hk => ?_);
       simp)

/-- C5: a second `claim_reward` after a successful one returns
`AlreadyClaimed` and returns the post-first-claim state unchanged (so the
user's balance is untouched), and the `claimed_reward` flag, once true, is
preserved by every engine operation. -/
theorem c5_claim_idempotent (s : CanisterState) (caller : Principal)
    (market_id : Nat) (mkt : AmmMarket) (w : TokenType) (pos : UserPosition)
    (hm : mget s.markets market_id = some mkt) (hres : mkt.status = .Resolved)
    (hw : mkt.winning_outcome = some w)
    (hp : mget s.user_positions (caller, market_id) = some pos)
    (hnc : pos.claimed_reward = false) (hwt : winningTokens w pos ≠ 0)
    (htot : totalWinningTokens s market_id w ≠ 0) :
    (claim_reward caller market_id s).1 =
      .ok { user := caller, market_id := market_id
            winning_tokens := winningTokens w pos
            reward_amount := winningTokens w pos * mkt.icp_liquidity_pool /
              totalWinningTokens s market_id w % U64
            claim_time := s.now } ∧
    claim_reward caller market_id (claim_reward caller market_id s).2 =
      (.error .AlreadyClaimed, (claim_reward caller market_id s).2) ∧
    (∀ op t u m, claimedFlag t u m = true → claimedFlag (step op t) u m = true) := by
  have heq : claim_reward caller market_id s =
      (.ok { user := caller, market_id := market_id
             winning_tokens := winningTokens w pos
             reward_amount := winningTokens w pos * mkt.icp_liquidity_pool /
               totalWinningTokens s market_id w % U64
             claim_time := s.now },
        { s with
          user_positions := mput s.user_positions (caller, market_id)
            { pos with
              claimed_reward := true
              yes_tokens := match w with | .Yes => 0 | .No => pos.yes_tokens
              no_tokens := match w with | .Yes => pos.no_tokens | .No => 0 }
          user_balances := mput s.user_balances caller
            (wadd (balanceOf s caller)
              (winningTokens w pos * mkt.icp_liquidity_pool /
                totalWinningTokens s market_id w % U64))
          reward_claims := s.reward_claims ++
            [{ user := caller, market_id := market_id
               winning_tokens := winningTokens w pos
               reward_amount := winningTokens w pos * mkt.icp_liquidity_pool /
                 totalWinningTokens s market_id w % U64
               claim_time := s.now }]
          markets := mput s.markets market_id
            { mkt with
              icp_liquidity_pool := mkt.icp_liquidity_pool -
                winningTokens w pos * mkt.icp_liquidity_pool /
                  totalWinningTokens s market_id w % U64 } }) := by
    cases w <;> simp [claim_reward, hm, hres, hw, hp, hnc, hwt, htot]
  refine ⟨by rw [heq], ?_, claimedFlag_step_mono⟩
  rw [heq]
  cases w <;> simp [claim_reward, hres, hw, mget_mput_self]

/-- C5 witness: at the concrete resolved state, the first claim succeeds
and the second returns `AlreadyClaimed` with the state unchanged. -/
theorem c5_claim_idempotent_witness :
    (claim_reward 7 1 wsResolved).1 =
      .ok { user := 7, market_id := 1
            winning_tokens := winningTokens TokenType.Yes rsPos
            reward_amount := winningTokens TokenType.Yes rsPos *
              rsMkt.icp_liquidity_pool / totalWinningTokens wsResolved 1
                TokenType.Yes % U64
            claim_time := wsResolved.now } ∧
    claim_reward 7 1 (claim_reward 7 1 wsResolved).2 =
      (.error .AlreadyClaimed, (claim_reward 7 1 wsResolved).2) :=
  ⟨(c5_claim_idempotent wsResolved 7 1 rsMkt TokenType.Yes rsPos (by decide)
      (by decide) (by decide) (by decide) (by decide) (by decide) (by decide)).1,
    (c5_claim_idempotent wsResolved 7 1 rsMkt TokenType.Yes rsPos (by decide)
      (by decide) (by decide) (by decide) (by decide) (by decide) (by decide)).2.1⟩

/-- C2 witness: the concrete buy of 100 ICP of YES at the witness state:
quote and execution both yield 109 tokens, and the position gains 109. -/
theorem c2_quote_matches_execution_witness :
    get_buy_quote 1 100 TokenType.Yes wsOpen =
      .ok { tokens_received := 109, tokens_paid := 100
            fee_paid := wmul 100 TRADE_FEE / 1000 } ∧
    (execute_buy_trade 7 1 100 0 TokenType.Yes wsOpen).1 =
      .ok { tokens_received := 109, tokens_paid := 100
            fee_paid := wmul 100 TRADE_FEE / 1000 } ∧
    posTokens (execute_buy_trade 7 1 100 0 TokenType.Yes wsOpen).2 7 1 TokenType.Yes =
      wadd (posTokens wsOpen 7 1 TokenType.Yes) 109 :=
  c2_quote_matches_execution wsOpen 7 1 100 0 TokenType.Yes wsMkt 109 (by decide)
    (by decide) (by decide) (by decide) (by decide) (by decide)

end ICPMarket
